import Mathlib

/-!
Verification of the session & local data-shaping core of the inventory
management web client: the encrypted key-value store and session state
(`ApiService`), the route authorization gate (`GuardService.canActivate`),
the client-side pagination (`TransactionComponent.loadTransactions`,
`ProductComponent.fetchProducts`, `PaginationComponent`), and the
transaction aggregation reducers (`DashboardComponent.processChartData`,
`DashboardComponent.processMonthlyData`).

Modelling conventions:
- `localStorage` is a total map `String → Option String` (`none` = key absent).
- The AES layer (CryptoJS) is abstracted as a `Cipher`: an encryption
  function, a decryption function that may fail (`none` models a thrown
  decryption error, caught by the source's `try/catch`), a round-trip law,
  and the fact that a ciphertext is never the empty string (AES output is
  a nonempty base64 blob).
- JavaScript numbers appearing in the claims are modelled as `ℚ` (prices)
  and `ℕ` (lengths, page numbers); `Math.ceil(a / b)` is modelled as the
  rational ceiling of the exact division.
-/

/-- The browser-local key-value surface (`localStorage`): `none` means the
key is absent. -/
def Storage : Type := String → Option String

/-- A storage with no entries. -/
def emptyStorage : Storage := fun _ => none

/-- `localStorage.setItem key value`. -/
def setItem (st : Storage) (key value : String) : Storage :=
  fun k => if k = key then some value else st k

/-- `localStorage.removeItem key`. -/
def removeItem (st : Storage) (key : String) : Storage :=
  fun k => if k = key then none else st k

/-- Abstraction of the CryptoJS AES layer used by `ApiService` with its
fixed `ENCRYPTION_KEY`: `decrypt` returns `none` when decryption throws
(malformed/tampered ciphertext); a genuine ciphertext round-trips and is
never the empty string. -/
structure Cipher where
  encrypt : String → String
  decrypt : String → Option String
  roundtrip : ∀ v, decrypt (encrypt v) = some v
  encrypt_ne : ∀ v, encrypt v ≠ ""

/-- `ApiService.encryptAndSaveToStorage(key, value)`: encrypt, then
`setItem`. -/
def encryptAndSaveToStorage (C : Cipher) (st : Storage) (key value : String) :
    Storage :=
  setItem st key (C.encrypt value)

/-- `ApiService.getFromStorageAndDecrypt(key)`: returns `null` (`none`) if
the entry is absent or falsy, otherwise decrypts; a thrown decryption
error is caught and becomes `null` (`C.decrypt` returning `none`). -/
def getFromStorageAndDecrypt (C : Cipher) (st : Storage) (key : String) :
    Option String :=
  match st key with
  | none => none
  | some c => if c = "" then none else C.decrypt c

/-- `ApiService.clearAuth()`: remove the `token` and `role` entries. -/
def clearAuth (st : Storage) : Storage :=
  removeItem (removeItem st "token") "role"

/-- `ApiService.logout()`: delegates to `clearAuth`. -/
def logout (st : Storage) : Storage := clearAuth st

/-- `LoginComponent.handleSubmit` on a 200 response: persist the token and
the role via `encryptAndSaveToStorage`. -/
def login (C : Cipher) (st : Storage) (token role : String) : Storage :=
  encryptAndSaveToStorage C (encryptAndSaveToStorage C st "token" token)
    "role" role

/-- `ApiService.isAuthenticated()`: `!!token` on the decrypted token —
`true` iff the decrypted value exists and is nonempty. -/
def isAuthenticated (C : Cipher) (st : Storage) : Bool :=
  match getFromStorageAndDecrypt C st "token" with
  | none => false
  | some t => t != ""

/-- `ApiService.isAdmin()`: strict equality `role === "ADMIN"` on the
decrypted role (`null === "ADMIN"` is `false`). -/
def isAdmin (C : Cipher) (st : Storage) : Bool :=
  match getFromStorageAndDecrypt C st "role" with
  | none => false
  | some r => r == "ADMIN"

/-- The outcome of `GuardService.canActivate`: either the navigation is
allowed, or it is denied with a redirect target and the `returnUrl`
query parameter. -/
inductive Decision where
  | allow : Decision
  | deny (redirectTo returnUrl : String) : Decision
deriving DecidableEq

/-- `GuardService.canActivate(route, state)`: reads
`route.data['requiresAdmin'] || false` (the flag may be absent), checks
`isAdmin` when it demands admin and `isAuthenticated` otherwise, and on
denial navigates to `/login` with `returnUrl: state.url`. -/
def canActivate (C : Cipher) (st : Storage) (routeRequiresAdmin : Option Bool)
    (url : String) : Decision :=
  let requiresAdmin := routeRequiresAdmin.getD false
  if requiresAdmin then
    if isAdmin C st then Decision.allow else Decision.deny "/login" url
  else
    if isAuthenticated C st then Decision.allow else Decision.deny "/login" url

/-- A concrete cipher used to instantiate witnesses: prepend a marker
character; decryption strips it and fails on anything unmarked. -/
def cipher0 : Cipher where
  encrypt v := String.mk ('E' :: v.data)
  decrypt s :=
    match s.data with
    | 'E' :: rest => some (String.mk rest)
    | _ => none
  roundtrip v := by cases v; rfl
  encrypt_ne v h := by
    have h2 : 'E' :: v.data = [] := congrArg String.data h
    exact List.noConfusion h2

/-- JavaScript `Array.prototype.slice(start, stop)` for nonnegative
indices: the elements from `start` (inclusive) to `stop` (exclusive),
clamped to the array bounds; `stop ≤ start` yields `[]`. -/
def jsSlice (l : List α) (start stop : ℕ) : List α :=
  (l.drop start).take (stop - start)

/-- Result of one client-side pagination step: the computed
`totalPages` field and the displayed slice. -/
structure PageResult (α : Type) where
  totalPages : ℕ
  pageItems : List α

/-- The pagination step shared by `TransactionComponent.loadTransactions`
and `ProductComponent.fetchProducts`:
`totalPages = Math.ceil(items.length / itemsPerPage)` (exact rational
ceiling) and
`pageItems = items.slice((currentPage - 1) * itemsPerPage, currentPage * itemsPerPage)`. -/
def paginate (items : List α) (itemsPerPage currentPage : ℕ) : PageResult α :=
  { totalPages := (⌈(items.length : ℚ) / (itemsPerPage : ℚ)⌉).toNat
    pageItems := jsSlice items ((currentPage - 1) * itemsPerPage)
      (currentPage * itemsPerPage) }

/-- `PaginationComponent.pageNumbers`:
`Array.from({length: totalPages}, (_, i) => i + 1)`. -/
def pageNumbers (totalPages : ℕ) : List ℕ :=
  (List.range totalPages).map (fun i => i + 1)

/-- `PaginationComponent.onPageChange(page)`: emits `page` through
`pageChange` iff `page >= 1 && page <= totalPages`; `none` models the
branch where nothing is emitted. -/
def onPageChange (page totalPages : ℕ) : Option ℕ :=
  if 1 ≤ page ∧ page ≤ totalPages then some page else none

/-- A transaction record as consumed by the dashboard reducers:
`transactionType`, `totalPrice` (a JS number, modelled as `ℚ`), and the
`createdAt` timestamp (abstract instant, modelled as `ℕ`). -/
structure Transaction where
  transactionType : String
  totalPrice : ℚ
  createdAt : ℕ

/-- The loop body of `DashboardComponent.processChartData`:
`typeCounts[type] = (typeCounts[type] || 0) + 1` and
`amountByType[type] = (amountByType[type] || 0) + totalPrice`, keyed by
`transactionType`; a key never written reads as 0. -/
def chartStep (acc : (String → ℕ) × (String → ℚ)) (t : Transaction) :
    (String → ℕ) × (String → ℚ) :=
  (fun k => if k = t.transactionType then acc.1 k + 1 else acc.1 k,
   fun k => if k = t.transactionType then acc.2 k + t.totalPrice else acc.2 k)

/-- `DashboardComponent.processChartData`: a single pass over the
transactions building `typeCounts` and `amountByType` from empty maps. -/
def processChartData (ts : List Transaction) : (String → ℕ) × (String → ℚ) :=
  ts.foldl chartStep (fun _ => 0, fun _ => 0)

/-- The loop body of `DashboardComponent.processMonthlyData`:
`dailyTotals[date] = (dailyTotals[date] || 0) + totalPrice`, keyed by
`new Date(createdAt).getDate()`; the local-time-zone day extraction is
abstracted as the parameter `getDate`. -/
def monthlyStep (getDate : ℕ → ℕ) (acc : ℕ → ℚ) (t : Transaction) : ℕ → ℚ :=
  fun d => if d = getDate t.createdAt then acc d + t.totalPrice else acc d

/-- `DashboardComponent.processMonthlyData`: accumulates `dailyTotals`
over the month's transactions, starting from the empty map. -/
def processMonthlyData (getDate : ℕ → ℕ) (ts : List Transaction) : ℕ → ℚ :=
  ts.foldl (monthlyStep getDate) (fun _ => 0)

lemma totalPages_bounds (len size : ℕ) (hs : 0 < size) :
    len ≤ size * ((len + size - 1) / size) ∧
    size * ((len + size - 1) / size) < len + size := by
  have hmod := Nat.div_add_mod (len + size - 1) size
  have hr : (len + size - 1) % size < size := Nat.mod_lt _ hs
  generalize (len + size - 1) / size = d at *
  generalize (len + size - 1) % size = r at *
  generalize size * d = m at *
  omega

lemma ceil_natDiv (len size : ℕ) (hs : 0 < size) :
    ⌈(len : ℚ) / (size : ℚ)⌉ = (((len + size - 1) / size : ℕ) : ℤ) := by
  obtain ⟨hb1, hb2⟩ := totalPages_bounds len size hs
  have hsQ : (0 : ℚ) < (size : ℚ) := by exact_mod_cast hs
  rw [Int.ceil_eq_iff]
  constructor
  · rw [lt_div_iff₀ hsQ]
    have key : ((((len + size - 1) / size : ℕ) : ℤ) - 1) * size < len := by
      have h2 : (size : ℤ) * ((len + size - 1) / size : ℕ) < len + size := by
        exact_mod_cast hb2
      nlinarith
    exact_mod_cast key
  · rw [div_le_iff₀ hsQ]
    have key : (len : ℤ) ≤ (((len + size - 1) / size : ℕ) : ℤ) * size := by
      have h1 : (len : ℤ) ≤ (size : ℤ) * ((len + size - 1) / size : ℕ) := by
        exact_mod_cast hb1
      nlinarith
    exact_mod_cast key

lemma paginate_totalPages (items : List α) (size p : ℕ) (hs : 0 < size) :
    (paginate items size p).totalPages = (items.length + size - 1) / size := by
  show (⌈(items.length : ℚ) / (size : ℚ)⌉).toNat = _
  rw [ceil_natDiv _ _ hs]
  exact Int.toNat_natCast _


lemma get_login_role (C : Cipher) (st : Storage) (tok r : String) :
    getFromStorageAndDecrypt C (login C st tok r) "role" = some r := by
  simp [login, encryptAndSaveToStorage, setItem, getFromStorageAndDecrypt,
    C.encrypt_ne r, C.roundtrip r]

lemma get_login_token (C : Cipher) (st : Storage) (tok r : String) :
    getFromStorageAndDecrypt C (login C st tok r) "token" = some tok := by
  simp [login, encryptAndSaveToStorage, setItem, getFromStorageAndDecrypt,
    C.encrypt_ne tok, C.roundtrip tok]

/-- Claim C1: `GuardService.canActivate` allows a navigation iff
`isAdmin()` holds when the route's `requiresAdmin` flag is true, and iff
`isAuthenticated()` holds otherwise; every denial is the decision that
redirects to `/login` carrying the requested URL as the return path. -/
theorem guard_allows_iff (C : Cipher) (st : Storage) (rra : Option Bool)
    (url : String) :
    (canActivate C st rra url = Decision.allow ↔
      (if rra.getD false then isAdmin C st else isAuthenticated C st) = true) ∧
    (canActivate C st rra url ≠ Decision.allow →
      canActivate C st rra url = Decision.deny "/login" url) := by
  unfold canActivate
  cases hA : rra.getD false
  · cases hB : isAuthenticated C st <;> simp [hA, hB]
  · cases hB : isAdmin C st <;> simp [hA, hB]

theorem guard_allows_iff_witness :
    canActivate cipher0 emptyStorage (some true) "/product" ≠ Decision.allow ∧
    canActivate cipher0 emptyStorage (some true) "/product" =
      Decision.deny "/login" "/product" :=
  ⟨by decide,
   (guard_allows_iff cipher0 emptyStorage (some true) "/product").2 (by decide)⟩

/-- Claim C2: `isAdmin()` is true iff the stored role entry decrypts to
the exact string `"ADMIN"`; any other persisted role — including the
lowercase `"admin"` — yields `false`. -/
theorem isAdmin_iff_role_admin_exact (C : Cipher) (st : Storage) :
    (isAdmin C st = true ↔
      getFromStorageAndDecrypt C st "role" = some "ADMIN") ∧
    (∀ tok r, r ≠ "ADMIN" → isAdmin C (login C st tok r) = false) := by
  constructor
  · unfold isAdmin
    cases h : getFromStorageAndDecrypt C st "role" <;> simp [h]
  · intro tok r hr
    simp [isAdmin, get_login_role, hr]

theorem isAdmin_iff_role_admin_exact_witness :
    ("admin" ≠ "ADMIN") ∧
    isAdmin cipher0 (login cipher0 emptyStorage "t" "admin") = false :=
  ⟨by decide,
   (isAdmin_iff_role_admin_exact cipher0 emptyStorage).2 "t" "admin" (by decide)⟩

/-- Claim C3: `isAuthenticated()` is true iff the stored token entry is
present and decrypts to a non-empty string; no other check (in
particular no expiry check) enters the decision. -/
theorem isAuthenticated_iff_token_nonempty (C : Cipher) (st : Storage) :
    isAuthenticated C st = true ↔
      ∃ t, getFromStorageAndDecrypt C st "token" = some t ∧ t ≠ "" := by
  unfold isAuthenticated
  cases h : getFromStorageAndDecrypt C st "token" <;> simp [h]

/-- Claim C4: `getFromStorageAndDecrypt` returns the plaintext after a
`encryptAndSaveToStorage` of the same key, returns absent (`none`) when
the key is missing, and returns absent when decryption of the stored
ciphertext fails — a corrupted entry is indistinguishable from a missing
one, and no error propagates (the function is total). -/
theorem get_swallows_decrypt_failure (C : Cipher) (st : Storage)
    (key : String) :
    (st key = none → getFromStorageAndDecrypt C st key = none) ∧
    (∀ v, getFromStorageAndDecrypt C (encryptAndSaveToStorage C st key v) key
      = some v) ∧
    (∀ c, st key = some c → C.decrypt c = none →
      getFromStorageAndDecrypt C st key = none) := by
  refine ⟨fun h => by simp [getFromStorageAndDecrypt, h], fun v => ?_,
    fun c hc hd => ?_⟩
  · simp [getFromStorageAndDecrypt, encryptAndSaveToStorage, setItem,
      C.encrypt_ne v, C.roundtrip v]
  · by_cases hce : c = "" <;> simp [getFromStorageAndDecrypt, hc, hce, hd]

theorem get_swallows_decrypt_failure_witness :
    (emptyStorage "k" = none ∧
      getFromStorageAndDecrypt cipher0 emptyStorage "k" = none) ∧
    (getFromStorageAndDecrypt cipher0
       (encryptAndSaveToStorage cipher0 emptyStorage "k" "v") "k" = some "v") ∧
    (setItem emptyStorage "k" "X" "k" = some "X" ∧
      cipher0.decrypt "X" = none ∧
      getFromStorageAndDecrypt cipher0 (setItem emptyStorage "k" "X") "k"
        = none) :=
  ⟨⟨rfl, (get_swallows_decrypt_failure cipher0 emptyStorage "k").1 rfl⟩,
   (get_swallows_decrypt_failure cipher0 emptyStorage "k").2.1 "v",
   ⟨by decide, by decide,
    (get_swallows_decrypt_failure cipher0 (setItem emptyStorage "k" "X")
      "k").2.2 "X" (by decide) (by decide)⟩⟩

/-- The two session-changing operations of the client: a successful login
(`LoginComponent.handleSubmit`, 200 branch) and `ApiService.logout`. -/
inductive SessionOp where
  | login (token role : String) : SessionOp
  | logout : SessionOp

/-- Apply one session operation to the storage. -/
def applyOp (C : Cipher) (st : Storage) : SessionOp → Storage
  | SessionOp.login t r => login C st t r
  | SessionOp.logout => logout st

/-- Apply a sequence of session operations, left to right. -/
def applyOps (C : Cipher) (st : Storage) (ops : List SessionOp) : Storage :=
  ops.foldl (applyOp C) st

lemma applyOps_both_or_neither (C : Cipher) (ops : List SessionOp)
    (st : Storage)
    (h : (st "token").isSome = (st "role").isSome) :
    ((applyOps C st ops) "token").isSome
      = ((applyOps C st ops) "role").isSome := by
  induction ops generalizing st with
  | nil => exact h
  | cons op rest ih =>
    simp only [applyOps, List.foldl_cons] at *
    apply ih
    cases op with
    | login t r => simp [applyOp, login, encryptAndSaveToStorage, setItem]
    | logout => simp [applyOp, logout, clearAuth, removeItem]

/-- Claim C5: `login` writes both the token and role entries and `logout`
removes both, so along any sequence of session operations the two entries
are both present or both absent; moreover `isAuthenticated` is false
immediately after `logout` and true immediately after
`login "t" "USER"`. -/
theorem session_state_machine (C : Cipher) :
    (∀ st t r, (login C st t r) "token" = some (C.encrypt t) ∧
      (login C st t r) "role" = some (C.encrypt r)) ∧
    (∀ st, (logout st) "token" = none ∧ (logout st) "role" = none) ∧
    (∀ st ops, (st "token").isSome = (st "role").isSome →
      ((applyOps C st ops) "token").isSome
        = ((applyOps C st ops) "role").isSome) ∧
    (∀ st, isAuthenticated C (logout st) = false) ∧
    (∀ st, isAuthenticated C (login C st "t" "USER") = true) := by
  refine ⟨fun st t r => ?_, fun st => ?_,
    fun st ops h => applyOps_both_or_neither C ops st h, fun st => ?_,
    fun st => ?_⟩
  · constructor <;> simp [login, encryptAndSaveToStorage, setItem]
  · constructor <;> simp [logout, clearAuth, removeItem]
  · simp [isAuthenticated, getFromStorageAndDecrypt, logout, clearAuth,
      removeItem]
  · simp [isAuthenticated, get_login_token]

theorem session_state_machine_witness :
    ((emptyStorage "token").isSome = (emptyStorage "role").isSome) ∧
    ((applyOps cipher0 emptyStorage
        [SessionOp.login "t" "ADMIN", SessionOp.logout] "token").isSome
      = (applyOps cipher0 emptyStorage
          [SessionOp.login "t" "ADMIN", SessionOp.logout] "role").isSome) ∧
    isAuthenticated cipher0 (logout emptyStorage) = false ∧
    isAuthenticated cipher0 (login cipher0 emptyStorage "t" "USER") = true :=
  ⟨rfl,
   (session_state_machine cipher0).2.2.1 emptyStorage
     [SessionOp.login "t" "ADMIN", SessionOp.logout] rfl,
   (session_state_machine cipher0).2.2.2.1 emptyStorage,
   (session_state_machine cipher0).2.2.2.2 emptyStorage⟩

/-- Claim C6: for every item list and positive page size, the computed
`totalPages` is exactly `ceil(count(items) / pageSize)` — the least page
count covering all items — and is `0` when the list is empty. -/
theorem totalPages_is_ceil (items : List α) (size p : ℕ) (hs : 0 < size) :
    items.length ≤ size * (paginate items size p).totalPages ∧
    size * (paginate items size p).totalPages < items.length + size ∧
    (items = [] → (paginate items size p).totalPages = 0) := by
  rw [paginate_totalPages items size p hs]
  obtain ⟨h1, h2⟩ := totalPages_bounds items.length size hs
  refine ⟨h1, h2, fun h => ?_⟩
  subst h
  simp only [List.length_nil, Nat.zero_add]
  exact Nat.div_eq_of_lt (by omega)

theorem totalPages_is_ceil_witness :
    (0 < (2 : ℕ)) ∧
    (([3, 1, 4] : List ℕ).length ≤ 2 * (paginate [3, 1, 4] 2 1).totalPages ∧
      2 * (paginate [3, 1, 4] 2 1).totalPages
        < ([3, 1, 4] : List ℕ).length + 2 ∧
      (([3, 1, 4] : List ℕ) = [] → (paginate [3, 1, 4] 2 1).totalPages = 0)) :=
  ⟨by decide, totalPages_is_ceil [3, 1, 4] 2 1 (by decide)⟩

/-- Claim C7: for a positive page size and a 1-based page number `p`, the
returned page is the slice `items[(p-1)*size : p*size]`; a page beyond
`totalPages` is empty (no error — the slice is total); every in-range page
has exactly `size` items except possibly the last, whose length is
`len(items) - size * (totalPages - 1)`. -/
theorem page_slice_shape (items : List α) (size p : ℕ) (hs : 0 < size)
    (hp : 1 ≤ p) :
    ((paginate items size p).pageItems
      = (items.drop ((p - 1) * size)).take size) ∧
    ((paginate items size p).totalPages < p →
      (paginate items size p).pageItems = []) ∧
    (p < (paginate items size p).totalPages →
      (paginate items size p).pageItems.length = size) ∧
    (p = (paginate items size p).totalPages →
      (paginate items size p).pageItems.length
        = items.length - size * ((paginate items size p).totalPages - 1)) := by
  obtain ⟨q, rfl⟩ : ∃ q, p = q + 1 := ⟨p - 1, by omega⟩
  obtain ⟨h1, h2⟩ := totalPages_bounds items.length size hs
  rw [← paginate_totalPages items size (q + 1) hs] at h1 h2
  have hslice : (paginate items size (q + 1)).pageItems
      = (items.drop (q * size)).take size := by
    show jsSlice items ((q + 1 - 1) * size) ((q + 1) * size) = _
    simp only [jsSlice, Nat.add_sub_cancel, add_mul, one_mul,
      Nat.add_sub_cancel_left]
  have hlen : (paginate items size (q + 1)).pageItems.length
      = min size (items.length - q * size) := by
    rw [hslice, List.length_take, List.length_drop]
  refine ⟨by rw [hslice, Nat.add_sub_cancel], fun hlt => ?_, fun hlt => ?_,
    fun heq => ?_⟩
  · have hle : items.length ≤ q * size := by
      calc items.length ≤ size * (paginate items size (q + 1)).totalPages :=
            h1
        _ ≤ size * q := Nat.mul_le_mul_left size (by omega)
        _ = q * size := Nat.mul_comm size q
    rw [hslice, List.drop_eq_nil_of_le hle, List.take_nil]
  · obtain ⟨T', hT'⟩ : ∃ T', (paginate items size (q + 1)).totalPages
        = T' + 1 := ⟨(paginate items size (q + 1)).totalPages - 1, by omega⟩
    rw [hT'] at h1 h2 hlt
    have key : q * size + size ≤ items.length := by
      have e1 : size * T' + size < items.length + size := by
        have h2' := h2; rw [Nat.mul_succ] at h2'; exact h2'
      have e2 : size * q + size ≤ size * T' := by
        have e := Nat.mul_le_mul_left size (show q + 1 ≤ T' by omega)
        rw [Nat.mul_succ] at e; exact e
      rw [Nat.mul_comm q size]
      generalize size * T' = a at e1 e2
      generalize size * q = b at e2 ⊢
      omega
    rw [hlen]
    generalize q * size = b at key ⊢
    omega
  · rw [hlen, ← heq, Nat.add_sub_cancel]
    rw [← heq] at h1
    have e1 : items.length ≤ size * q + size := by
      have h1' := h1; rw [Nat.mul_succ] at h1'; exact h1'
    rw [Nat.mul_comm size q] at e1 ⊢
    generalize q * size = b at e1 ⊢
    omega

theorem page_slice_shape_witness :
    ((0 < (2 : ℕ)) ∧ (1 ≤ (2 : ℕ))) ∧
    ((paginate [3, 1, 4] 2 2).pageItems
      = (([3, 1, 4] : List ℕ).drop ((2 - 1) * 2)).take 2 ∧
    ((paginate [3, 1, 4] 2 2).totalPages < 2 →
      (paginate [3, 1, 4] 2 2).pageItems = []) ∧
    (2 < (paginate [3, 1, 4] 2 2).totalPages →
      (paginate [3, 1, 4] 2 2).pageItems.length = 2) ∧
    (2 = (paginate [3, 1, 4] 2 2).totalPages →
      (paginate [3, 1, 4] 2 2).pageItems.length
        = ([3, 1, 4] : List ℕ).length
          - 2 * ((paginate [3, 1, 4] 2 2).totalPages - 1))) :=
  ⟨⟨by decide, by decide⟩, page_slice_shape [3, 1, 4] 2 2 (by decide) (by decide)⟩

/-- Claim C8: `pageNumbers` is exactly the ascending sequence
`[1..totalPages]`, and `onPageChange` emits the requested page iff
`1 ≤ requested ≤ totalPages` — and never emits any other value. -/
theorem page_selector_ops (p T : ℕ) :
    pageNumbers T = List.range' 1 T ∧
    (∀ k, k ∈ pageNumbers T ↔ 1 ≤ k ∧ k ≤ T) ∧
    List.Pairwise (· < ·) (pageNumbers T) ∧
    ((onPageChange p T).isSome ↔ (1 ≤ p ∧ p ≤ T)) ∧
    (∀ q, onPageChange p T = some q → q = p) := by
  refine ⟨?_, ?_, ?_, ?_, ?_⟩
  · rw [List.range'_eq_map_range]
    simp [pageNumbers, Nat.add_comm]
  · intro k
    simp only [pageNumbers, List.mem_map, List.mem_range]
    constructor
    · rintro ⟨i, hi, rfl⟩; omega
    · intro hk; exact ⟨k - 1, by omega, by omega⟩
  · rw [pageNumbers, List.pairwise_map]
    exact (List.pairwise_lt_range T).imp (by omega)
  · unfold onPageChange
    split <;> simp_all
  · intro q h
    unfold onPageChange at h
    split at h
    · exact (Option.some_inj.mp h).symm
    · exact Option.noConfusion h

theorem page_selector_ops_witness :
    onPageChange 2 3 = some 2 ∧ (2 : ℕ) = 2 :=
  ⟨by decide, (page_selector_ops 2 3).2.2.2.2 2 (by decide)⟩

lemma chartStep_foldl (ts : List Transaction)
    (acc : (String → ℕ) × (String → ℚ)) (k : String) :
    (ts.foldl chartStep acc).1 k
      = acc.1 k + (ts.filter (fun t => t.transactionType == k)).length ∧
    (ts.foldl chartStep acc).2 k
      = acc.2 k + ((ts.filter (fun t => t.transactionType == k)).map
          Transaction.totalPrice).sum := by
  induction ts generalizing acc with
  | nil => simp
  | cons t rest ih =>
    obtain ⟨ih1, ih2⟩ := ih (chartStep acc t)
    simp only [List.foldl_cons, List.filter_cons]
    by_cases h : t.transactionType = k
    · rw [if_pos (by simpa using h)]
      constructor
      · rw [ih1]
        simp [chartStep, h.symm]
        omega
      · rw [ih2]
        simp [chartStep, h.symm]
        ring
    · rw [if_neg (by simpa using h)]
      constructor
      · rw [ih1]
        simp [chartStep, Ne.symm h]
      · rw [ih2]
        simp [chartStep, Ne.symm h]

/-- Transactions of the scenario fixed by the claim: types
`SELL`, `SELL`, `PURCHASE` with prices 10, 20, 5. -/
def demoTransactions : List Transaction :=
  [⟨"SELL", 10, 1⟩, ⟨"SELL", 20, 1⟩, ⟨"PURCHASE", 5, 15⟩]

/-- Claim C9: `typeCounts` maps each transaction type to the number of
records of that type and `amountByType` to the sum of their `totalPrice`;
both are empty (identically 0) on empty input; on the scenario records
(`SELL`, `SELL`, `PURCHASE` with prices 10, 20, 5) the results are
`{SELL: 2, PURCHASE: 1}` and `{SELL: 30, PURCHASE: 5}`. -/
theorem chart_reducers (ts : List Transaction) (k : String) :
    ((processChartData ts).1 k
      = (ts.filter (fun t => t.transactionType == k)).length) ∧
    ((processChartData ts).2 k
      = ((ts.filter (fun t => t.transactionType == k)).map
          Transaction.totalPrice).sum) ∧
    ((processChartData ([] : List Transaction)).1 k = 0 ∧
      (processChartData ([] : List Transaction)).2 k = 0) ∧
    ((processChartData demoTransactions).1 "SELL" = 2 ∧
      (processChartData demoTransactions).1 "PURCHASE" = 1 ∧
      (processChartData demoTransactions).2 "SELL" = 30 ∧
      (processChartData demoTransactions).2 "PURCHASE" = 5) := by
  obtain ⟨h1, h2⟩ := chartStep_foldl ts (fun _ => 0, fun _ => 0) k
  refine ⟨by simpa [processChartData] using h1,
    by simpa [processChartData] using h2, by simp [processChartData], ?_⟩
  refine ⟨?_, ?_, ?_, ?_⟩ <;>
    (simp [processChartData, chartStep, demoTransactions] <;> norm_num)

lemma monthlyStep_foldl (getDate : ℕ → ℕ) (ts : List Transaction)
    (acc : ℕ → ℚ) (d : ℕ) :
    (ts.foldl (monthlyStep getDate) acc) d
      = acc d + ((ts.filter (fun t => getDate t.createdAt == d)).map
          Transaction.totalPrice).sum := by
  induction ts generalizing acc with
  | nil => simp
  | cons t rest ih =>
    simp only [List.foldl_cons, List.filter_cons]
    by_cases h : getDate t.createdAt = d
    · rw [if_pos (by simpa using h)]
      rw [ih (monthlyStep getDate acc t)]
      simp [monthlyStep, h.symm]
      ring
    · rw [if_neg (by simpa using h)]
      rw [ih (monthlyStep getDate acc t)]
      simp [monthlyStep, Ne.symm h]

/-- Transactions of the scenario fixed by the claim: days 1, 1, 15 with
prices 5, 5, 7. -/
def demoMonthly : List Transaction :=
  [⟨"SELL", 5, 1⟩, ⟨"SELL", 5, 1⟩, ⟨"SELL", 7, 15⟩]

/-- Claim C10: `dailyTotals` maps each day of month (as extracted from
`createdAt` by the local-time `getDate`, abstracted as a parameter) to
the sum of `totalPrice` of the records on that day; it is identically 0
on empty input; on the scenario records (days 1, 1, 15 with prices
5, 5, 7) the result is `{1: 10, 15: 7}`. -/
theorem daily_sums (getDate : ℕ → ℕ) (ts : List Transaction) (d : ℕ) :
    (processMonthlyData getDate ts d
      = ((ts.filter (fun t => getDate t.createdAt == d)).map
          Transaction.totalPrice).sum) ∧
    (processMonthlyData getDate ([] : List Transaction) d = 0) ∧
    (processMonthlyData id demoMonthly 1 = 10 ∧
      processMonthlyData id demoMonthly 15 = 7) := by
  refine ⟨by simpa [processMonthlyData] using
      monthlyStep_foldl getDate ts (fun _ => 0) d,
    by simp [processMonthlyData], ?_, ?_⟩ <;>
    (simp [processMonthlyData, monthlyStep, demoMonthly] <;> norm_num)
